import Mathlib

/-!
Shallow embedding of the mdp-sdk payments module — `PaymentsModule.fundJob`
and the x402 helpers `formatUSDC` / `parseUSDC` / `X402_CONSTANTS`
(src/payments.ts and the payments part of the bundled module) — together
with proofs of the specified properties.

Decimal number strings are modelled as lists of base-10 digits, big-endian
(the order in which they appear in the string).  The JavaScript conversions
`BigInt(...)` and `Number(...)` are modelled on that representation, with
`none` standing for a thrown `SyntaxError` and for a `NaN` result
respectively; the model covers the canonical non-negative decimal strings
these helpers are applied to.
-/

namespace MdpSdk

/-- Value of a big-endian digit list (the number the decimal string spells). -/
def ofDigitsBE (l : List ℕ) : ℕ := Nat.ofDigits 10 l.reverse

/-- Big-endian base-10 digit list of `n`, as produced by `n.toString()`
(`0` yields `[]`, which spells the same value as `"0"`). -/
def natToDigitsBE (n : ℕ) : List ℕ := (Nat.digits 10 n).reverse

/-- Model of `String.prototype.padStart(6, "0")` on digit lists. -/
def padStart6 (l : List ℕ) : List ℕ := List.replicate (6 - l.length) 0 ++ l

/-- Model of `String.prototype.padEnd(6, "0")` on digit lists. -/
def padEnd6 (l : List ℕ) : List ℕ := l ++ List.replicate (6 - l.length) 0

/-- Model of `.replace(/0+$/, "")`: drop every trailing zero digit. -/
def stripTrailingZeros (l : List ℕ) : List ℕ :=
  (l.reverse.dropWhile (fun d => d == 0)).reverse

/-- A decimal amount string `whole.frac`; `frac = []` models a string with no
decimal point (`"12"`) as well as `"12."` — both parse identically. -/
structure DecimalString where
  whole : List ℕ
  frac : List ℕ
  deriving Repr, DecidableEq

/-- `formatUSDC` (src/payments.ts): `whole = amount / 1e6`,
`fraction = amount % 1e6`; a zero fraction prints just the whole part,
otherwise the fraction is left-padded to 6 digits and trailing zeros are
stripped. -/
def formatUSDC (baseUnits : ℕ) : DecimalString :=
  let whole := baseUnits / 1000000
  let fraction := baseUnits % 1000000
  if fraction = 0 then ⟨natToDigitsBE whole, []⟩
  else ⟨natToDigitsBE whole, stripTrailingZeros (padStart6 (natToDigitsBE fraction))⟩

/-- Model of `BigInt(s)` on a digit-list string: the decimal value when every
entry is a digit, `none` (a thrown `SyntaxError`) otherwise. -/
def jsBigInt (l : List ℕ) : Option ℕ :=
  if l.all (fun d => d < 10) then some (ofDigitsBE l) else none

/-- `parseUSDC` (src/payments.ts): split into whole and fraction parts,
right-pad the fraction to 6 digits, keep only the first 6, and feed the
concatenation `whole ++ paddedFraction` to `BigInt`. -/
def parseUSDC (s : DecimalString) : Option ℕ :=
  jsBigInt (s.whole ++ (padEnd6 s.frac).take 6)

/-! ## Data model of `PaymentsModule.fundJob`

The module is embedded as a deterministic function of an explicit
environment `Env` carrying everything external: the intent returned by the
resolver, the signer's capabilities and outputs, the random-bytes and clock
sources (indexed by draw/read number), and the transport responses to the
`settle`/`confirm` calls.  The run returns the thrown error or the
`FundJobResult`, together with the ordered list of observable external
calls. -/

/-- `PaymentRequirementExtra` (src/types.ts); every field `Option` because
`fundJob` accesses them defensively (`req.extra?.x`). -/
structure PaymentRequirementExtra where
  contractMode : Option Bool
  jobKey : Option String
  agentWallet : Option String
  agentExecutorWallet : Option String
  agentPayoutWallet : Option String
  deriving Repr, DecidableEq

/-- The `requirement` part of `PaymentIntentResponse` (src/types.ts),
restricted to the fields `fundJob` reads; `Option` marks values the server
may omit (JS `undefined`). -/
structure Requirement where
  network : Option String
  asset : Option String
  payTo : Option String
  maxAmountRequired : Option String
  extra : Option PaymentRequirementExtra
  deriving Repr, DecidableEq

/-- `PaymentIntentResponse` (src/types.ts). -/
structure PaymentIntentResponse where
  paymentId : String
  requirement : Requirement
  paymentIds : Option (List String)
  requirements : Option (List Requirement)
  deriving Repr, DecidableEq

/-- The EIP-3009 `TransferWithAuthorization` message passed to
`signTypedData` and re-encoded into the x402 header.  `fromAddr`/`toAddr` model the
`from`/`to` fields (both reserved words in Lean).  `toAddr` is `Option` because
`req.payTo as ...` is a bare cast: a missing `payTo` flows through
unchecked as `undefined`. -/
structure TransferWithAuthorization where
  fromAddr : String
  toAddr : Option String
  value : ℕ
  validAfter : ℕ
  validBefore : ℕ
  nonce : String
  deriving Repr, DecidableEq

/-- The EIP-712 domain `fundJob` builds; `chainId = none` models a `NaN`
produced by the JS `Number(...)` conversion. -/
structure Eip712Domain where
  name : String
  version : String
  chainId : Option ℕ
  verifyingContract : String
  deriving Repr, DecidableEq

/-- The x402 payment header.  `btoa(JSON.stringify(...))` is a lossless
serialization of the object built in the source, so the header is modelled
structurally (the `value`/`validAfter`/`validBefore` fields are stringified
by the injective decimal printing, kept here as numbers). -/
structure PaymentHeader where
  x402Version : ℕ
  scheme : String
  network : Option String
  signature : String
  authorization : TransferWithAuthorization
  deriving Repr, DecidableEq

/-- `FundJobResult` (src/types.ts). -/
structure FundJobResult where
  success : Bool
  txHash : Option String
  paymentId : String
  mode : String
  deriving Repr, DecidableEq

/-- `FundJobOptions` (src/types.ts). -/
structure FundJobOptions where
  pollIntervalMs : Option ℕ
  timeoutMs : Option ℕ
  deriving Repr, DecidableEq

/-- The exceptions `fundJob` can throw. -/
inductive FundError where
  /-- Thrown when `typeof signer.signTypedData !== "function"` — the spec's
  `UnsupportedSigner`, checked first. -/
  | unsupportedSignerTypedData
  /-- Thrown in contract mode when `typeof signer.sendTransaction !==
  "function"` — the spec's `UnsupportedSigner`. -/
  | unsupportedSignerSendTransaction
  /-- Thrown when the executor/payout wallets cannot be determined — the
  spec's `MissingWalletMetadata`. -/
  | missingWalletMetadata
  /-- Models the `SyntaxError`/`TypeError` a `BigInt(req.maxAmountRequired)`
  conversion throws on a missing or malformed amount. -/
  | bigIntConversion
  /-- Models a rejected `settle` HTTP call (index and transport message),
  propagated as-is — the spec's `SettlementFailed`. -/
  | settleFailed (i : ℕ) (msg : String)
  deriving Repr, DecidableEq

/-- One observable call to an external collaborator, in program order.
`sendTransaction` keeps the destination and chain id; the ABI-encoded
calldata (jobKey, wallets, signature components) is abstracted away, as no
verified property mentions it.  `sleep` records the pauses between polls. -/
inductive NetCall where
  | createIntent (jobId proposalId : String)
  | getAddress
  | signTypedData (domain : Eip712Domain) (message : TransferWithAuthorization)
  | sendTransaction (toAddr : Option String) (chainId : Option ℕ)
  | settle (paymentId : String) (header : PaymentHeader)
  | confirm (paymentId txHash : String)
  | sleep (ms : ℕ)
  deriving Repr, DecidableEq

/-- The external world a `fundJob` run interacts with.  The indexed
functions give the value produced by the k-th `signTypedData` call,
`randomBytes32Hex` draw, `Date.now()` read (milliseconds), `settle` call
(`some msg` = the call throws) and `confirm` call (`true` = status
`"settled"`). -/
structure Env where
  intent : PaymentIntentResponse
  hasSignTypedData : Bool
  hasSendTransaction : Bool
  address : String
  signTypedDataResult : ℕ → String
  randomBytes32Hex : ℕ → String
  dateNow : ℕ → ℕ
  settleOutcome : ℕ → Option String
  confirmSettled : ℕ → Bool
  txHash : String

/-- A JS string value is truthy iff it is present and non-empty. -/
def jsTruthy : Option String → Bool
  | none => false
  | some s => !s.data.isEmpty

/-- Model of `Number(s)` restricted to the strings the code meets: `""` is
`0`, a digit string parses, anything else is `NaN` (`none`). -/
def jsNumber (s : List Char) : Option ℕ :=
  if s.isEmpty then some 0
  else if s.all (fun c => c.isDigit) then
    some (ofDigitsBE (s.map (fun c => c.toNat - 48)))
  else none

/-- Model of `BigInt(s)` on an optional string: `undefined` throws, `""` is
`0`, and a canonical non-negative decimal string parses; everything else is
a throw (`none`).  On this domain `BigInt` accepts exactly the strings
`Number` maps to an integer, so the same digit-parser is used. -/
def jsBigIntStr : Option String → Option ℕ
  | none => none
  | some s => jsNumber s.data

/-- Model of JS `String.prototype.split(":")` on the character list of a
string: split at every colon; `""` gives `[""]`. -/
def splitOnColon : List Char → List (List Char)
  | [] => [[]]
  | c :: cs =>
      if c = ':' then [] :: splitOnColon cs
      else
        match splitOnColon cs with
        | [] => [[c]]
        | h :: t => (c :: h) :: t

/-- Chain-id derivation in `fundJob` step 2:
`Number(String(req.network ?? "").split(":")[1] ?? 8453)`. -/
def deriveChainId (network : Option String) : Option ℕ :=
  match (splitOnColon (network.getD "").data).get? 1 with
  | none => some 8453
  | some suf => jsNumber suf

/-- `X402_CONSTANTS.USDC_ADDRESS` (src/payments.ts). -/
def USDC_ADDRESS : String := "0x833589fCD6eDb6E08f4c7C32D4f71b54bdA02913"

/-- Characters of a split segment: everything up to the next occurrence of
the separator `"/erc20:"`. -/
def takeUntilErc20 : List Char → List Char
  | [] => []
  | '/' :: 'e' :: 'r' :: 'c' :: '2' :: '0' :: ':' :: _ => []
  | c :: cs => c :: takeUntilErc20 cs

/-- Second segment of `a.split("/erc20:")` (JS semantics): the text after
the first occurrence of the separator, up to the next occurrence; `none`
when the separator does not occur. -/
def splitErc20Tail : List Char → Option (List Char)
  | [] => none
  | '/' :: 'e' :: 'r' :: 'c' :: '2' :: '0' :: ':' :: rest => some (takeUntilErc20 rest)
  | _ :: cs => splitErc20Tail cs

/-- Token-address derivation:
`req.asset ? (req.asset.split("/erc20:")[1] ?? USDC_ADDRESS) : USDC_ADDRESS`.
An empty `asset` string is falsy in JS, hence also the fallback. -/
def deriveTokenAddr (asset : Option String) : String :=
  match asset with
  | none => USDC_ADDRESS
  | some a =>
      if a.data.isEmpty then USDC_ADDRESS
      else match splitErc20Tail a.data with
        | some tail => String.mk tail
        | none => USDC_ADDRESS

/-- The EIP-712 domain built at step 3 (`USDC_EIP712_DOMAIN` plus the
derived chain id and token address). -/
def eip712Domain (req : Requirement) : Eip712Domain :=
  ⟨"USD Coin", "2", deriveChainId req.network, deriveTokenAddr req.asset⟩

/-- The escrow (requirement 0) authorization message: `Date.now()` read 0
and `randomBytes32Hex` draw 0. -/
def escrowMessage (env : Env) (value : ℕ) : TransferWithAuthorization :=
  ⟨env.address, env.intent.requirement.payTo, value, 0,
    env.dateNow 0 / 1000 + 300, env.randomBytes32Hex 0⟩

/-- `Boolean(req.extra?.contractMode)`. -/
def isContractMode (req : Requirement) : Bool :=
  (req.extra.bind (fun e => e.contractMode)).getD false

/-- `req.extra?.agentExecutorWallet ?? req.extra?.agentWallet`. -/
def agentExecutorWallet (req : Requirement) : Option String :=
  match req.extra.bind (fun e => e.agentExecutorWallet) with
  | some w => some w
  | none => req.extra.bind (fun e => e.agentWallet)

/-- `req.extra?.agentPayoutWallet ?? agentExecutorWallet`. -/
def agentPayoutWallet (req : Requirement) : Option String :=
  match req.extra.bind (fun e => e.agentPayoutWallet) with
  | some w => some w
  | none => agentExecutorWallet req

/-- The fresh `TransferWithAuthorization` message signed for a fee
requirement (`i > 0`): its own value, a fresh `randomBytes32Hex` draw
(`nonIdx`) and a fresh `Date.now()` read (`timeIdx`) for `validBefore`. -/
def feeSignedMessage (env : Env) (fromAddr : String) (r : Requirement)
    (feeValue nonIdx timeIdx : ℕ) : TransferWithAuthorization :=
  ⟨fromAddr, r.payTo, feeValue, 0, env.dateNow timeIdx / 1000 + 300,
    env.randomBytes32Hex nonIdx⟩

/-- The x402 header encoded for a fee requirement.  As in the source, the
encoded `validBefore` is `validBefore0` — the value computed for
requirement 0 — not the freshly read one that went into the signed
message. -/
def feeHeader (env : Env) (fromAddr : String) (network : Option String)
    (validBefore0 : ℕ) (r : Requirement) (feeValue sigIdx nonIdx : ℕ) : PaymentHeader :=
  ⟨1, "exact", network, env.signTypedDataResult sigIdx,
    ⟨fromAddr, r.payTo, feeValue, 0, validBefore0, env.randomBytes32Hex nonIdx⟩⟩

/-- The facilitator settlement loop
(`for (let i = 0; i < allPaymentIds.length; i++) { ... }`).  `i` is the
loop index (equally the index of the next `settle` call);
`sigIdx`/`nonIdx`/`timeIdx` index the next `signTypedData` call,
`randomBytes32Hex` draw and `Date.now()` read.  Requirement 0 (and any
index whose requirement is absent) settles the precomputed `header0`; a
later present requirement gets a freshly built and signed header. -/
def settleLoop (env : Env) (domain : Eip712Domain) (fromAddr : String)
    (network : Option String) (validBefore0 : ℕ) (header0 : PaymentHeader)
    (reqs : List Requirement) (paymentId : String) :
    List String → ℕ → ℕ → ℕ → ℕ → Except FundError FundJobResult × List NetCall
  | [], _, _, _, _ => (.ok ⟨true, none, paymentId, "facilitator"⟩, [])
  | pid :: rest, i, sigIdx, nonIdx, timeIdx =>
      if 0 < i then
        match reqs.get? i with
        | some r =>
            match jsBigIntStr r.maxAmountRequired with
            | none => (.error .bigIntConversion, [])
            | some feeValue =>
                let signedMsg := feeSignedMessage env fromAddr r feeValue nonIdx timeIdx
                let header := feeHeader env fromAddr network validBefore0 r feeValue sigIdx nonIdx
                match env.settleOutcome i with
                | some msg =>
                    (.error (.settleFailed i msg),
                      [NetCall.signTypedData domain signedMsg, NetCall.settle pid header])
                | none =>
                    let next := settleLoop env domain fromAddr network validBefore0 header0
                      reqs paymentId rest (i + 1) (sigIdx + 1) (nonIdx + 1) (timeIdx + 1)
                    (next.1, NetCall.signTypedData domain signedMsg ::
                      NetCall.settle pid header :: next.2)
        | none =>
            match env.settleOutcome i with
            | some msg => (.error (.settleFailed i msg), [NetCall.settle pid header0])
            | none =>
                let next := settleLoop env domain fromAddr network validBefore0 header0
                  reqs paymentId rest (i + 1) sigIdx nonIdx timeIdx
                (next.1, NetCall.settle pid header0 :: next.2)
      else
        match env.settleOutcome i with
        | some msg => (.error (.settleFailed i msg), [NetCall.settle pid header0])
        | none =>
            let next := settleLoop env domain fromAddr network validBefore0 header0
              reqs paymentId rest (i + 1) sigIdx nonIdx timeIdx
            (next.1, NetCall.settle pid header0 :: next.2)

/-- The contract-mode confirmation poll loop
(`while (Date.now() - start < timeout) { ... }`).  `fuel` bounds how many
iterations the model unrolls; `none` means the bound was reached before the
loop exited.  `timeIdx`/`confIdx` index the next `Date.now()` read and
`confirm` call. -/
def pollLoop (env : Env) (paymentId txHash : String)
    (pollInterval timeout start : ℕ) :
    ℕ → ℕ → ℕ → Option (FundJobResult × List NetCall)
  | 0, _, _ => none
  | fuel + 1, timeIdx, confIdx =>
      if env.dateNow timeIdx - start < timeout then
        if env.confirmSettled confIdx then
          some (⟨true, some txHash, paymentId, "contract"⟩,
            [NetCall.confirm paymentId txHash])
        else
          match pollLoop env paymentId txHash pollInterval timeout start
              fuel (timeIdx + 1) (confIdx + 1) with
          | none => none
          | some (res, calls) =>
              some (res, NetCall.confirm paymentId txHash ::
                NetCall.sleep pollInterval :: calls)
      else
        some (⟨false, some txHash, paymentId, "contract"⟩, [])

/-- `PaymentsModule.fundJob`.  The first component is `none` when the model
ran out of poll fuel, otherwise the thrown error or the returned
`FundJobResult`; the second is the ordered external call trace. -/
def fundJob (env : Env) (jobId proposalId : String) (options : FundJobOptions)
    (fuel : ℕ) : Option (Except FundError FundJobResult) × List NetCall :=
  if env.hasSignTypedData then
    let intent := env.intent
    let req := intent.requirement
    let paymentId := intent.paymentId
    let fromAddr := env.address
    let calls0 : List NetCall :=
      [NetCall.createIntent jobId proposalId, NetCall.getAddress]
    match jsBigIntStr req.maxAmountRequired with
    | none => (some (.error .bigIntConversion), calls0)
    | some value =>
        let validBefore := env.dateNow 0 / 1000 + 300
        let domain := eip712Domain req
        let message := escrowMessage env value
        let signature := env.signTypedDataResult 0
        let calls1 := calls0 ++ [NetCall.signTypedData domain message]
        if isContractMode req then
          if env.hasSendTransaction then
            if jsTruthy (agentExecutorWallet req) && jsTruthy (agentPayoutWallet req) then
              let txHash := env.txHash
              let calls2 := calls1 ++ [NetCall.sendTransaction req.payTo (deriveChainId req.network)]
              let pollInterval := options.pollIntervalMs.getD 5000
              let timeout := options.timeoutMs.getD 180000
              let start := env.dateNow 1
              match pollLoop env paymentId txHash pollInterval timeout start fuel 2 0 with
              | none => (none, calls2)
              | some (res, calls3) => (some (.ok res), calls2 ++ calls3)
            else (some (.error .missingWalletMetadata), calls1)
          else (some (.error .unsupportedSignerSendTransaction), calls1)
        else
          let header0 : PaymentHeader := ⟨1, "exact", req.network, signature, message⟩
          let allPaymentIds := intent.paymentIds.getD [paymentId]
          let allRequirements := intent.requirements.getD [req]
          let run := settleLoop env domain fromAddr req.network validBefore
            header0 allRequirements paymentId allPaymentIds 0 1 1 1
          (some run.1, calls1 ++ run.2)
  else (some (.error .unsupportedSignerTypedData), [])

/-- Number of calls in a trace satisfying `p`. -/
def countCalls (p : NetCall → Bool) (tr : List NetCall) : ℕ := (tr.filter p).length

def isCreateIntent : NetCall → Bool
  | .createIntent _ _ => true
  | _ => false

def isSettle : NetCall → Bool
  | .settle _ _ => true
  | _ => false

def isConfirm : NetCall → Bool
  | .confirm _ _ => true
  | _ => false

def isSignTypedData : NetCall → Bool
  | .signTypedData _ _ => true
  | _ => false

def isSendTransaction : NetCall → Bool
  | .sendTransaction _ _ => true
  | _ => false

/-- Payment ids of the `settle` calls of a trace, in order. -/
def settleIds (tr : List NetCall) : List String :=
  tr.filterMap (fun c => match c with
    | .settle pid _ => some pid
    | _ => none)

/-- The `settle` calls of a trace (payment id and header), in order. -/
def settleCalls (tr : List NetCall) : List (String × PaymentHeader) :=
  tr.filterMap (fun c => match c with
    | .settle pid h => some (pid, h)
    | _ => none)

/-- The messages passed to `signTypedData`, in order. -/
def signedMessages (tr : List NetCall) : List TransferWithAuthorization :=
  tr.filterMap (fun c => match c with
    | .signTypedData _ m => some m
    | _ => none)

/-! ## Concrete environments used by witnesses and counterexamples -/

/-- Default (empty) `FundJobOptions`. -/
def noOpts : FundJobOptions := ⟨none, none⟩

/-- Small poll options used in concrete contract-mode runs. -/
def fastOpts : FundJobOptions := ⟨some 1, some 3⟩

/-- A representative facilitator-mode requirement. -/
def reqFacilitator : Requirement :=
  ⟨some "eip155:8453",
    some "eip155:8453/erc20:0x833589fCD6eDb6E08f4c7C32D4f71b54bdA02913",
    some "0xPay", some "1000000", none⟩

/-- A representative contract-mode requirement (executor/payout wallets set). -/
def reqContract : Requirement :=
  ⟨some "eip155:8453", none, some "0xEscrow", some "1000000",
    some ⟨some true, none, none, some "0xExec", some "0xPayout"⟩⟩

/-- A representative platform-fee requirement. -/
def reqFee : Requirement :=
  ⟨some "eip155:8453", none, some "0xFee", some "50000", none⟩

/-- A requirement whose `payTo` is absent. -/
def reqNoPayTo : Requirement :=
  ⟨some "eip155:8453", none, none, some "1000000", none⟩

/-- A two-requirement intent (escrow plus platform fee). -/
def intentTwo : PaymentIntentResponse :=
  ⟨"pay-0", reqFacilitator, some ["pay-0", "pay-1"],
    some [reqFacilitator, reqFee]⟩

/-- Environment whose signer lacks `signTypedData`. -/
def envNoTypedData : Env :=
  ⟨⟨"pay-1", reqFacilitator, none, none⟩, false, false, "0xFrom",
    fun k => "sig" ++ toString k, fun k => "nonce" ++ toString k,
    fun k => 1000 * k, fun _ => none, fun _ => false, "0xTx"⟩

/-- Contract-mode environment whose signer lacks `sendTransaction`. -/
def envNoSendTx : Env :=
  ⟨⟨"pay-1", reqContract, none, none⟩, true, false, "0xFrom",
    fun k => "sig" ++ toString k, fun k => "nonce" ++ toString k,
    fun k => 1000 * k, fun _ => none, fun _ => false, "0xTx"⟩

/-- Contract-mode environment: second `confirm` reports `"settled"`;
`Date.now()` reads are `0, 1, 2, ...` ms. -/
def envContractSettles : Env :=
  ⟨⟨"pay-1", reqContract, none, none⟩, true, true, "0xFrom",
    fun k => "sig" ++ toString k, fun k => "nonce" ++ toString k,
    fun k => k, fun _ => none, fun k => decide (1 ≤ k), "0xTx"⟩

/-- Contract-mode environment where `confirm` never reports `"settled"`. -/
def envContractPending : Env :=
  ⟨⟨"pay-1", reqContract, none, none⟩, true, true, "0xFrom",
    fun k => "sig" ++ toString k, fun k => "nonce" ++ toString k,
    fun k => k, fun _ => none, fun _ => false, "0xTx"⟩

/-- Facilitator environment with the two-requirement intent; all settle
calls succeed; `Date.now()` reads advance by a full second. -/
def envFacilitatorOk : Env :=
  ⟨intentTwo, true, false, "0xFrom",
    fun k => "sig" ++ toString k, fun k => "nonce" ++ toString k,
    fun k => 1000 * k, fun _ => none, fun _ => false, "0xTx"⟩

/-- Facilitator environment where the very first settle call is rejected. -/
def envFacilitatorFail0 : Env :=
  ⟨intentTwo, true, false, "0xFrom",
    fun k => "sig" ++ toString k, fun k => "nonce" ++ toString k,
    fun k => 1000 * k, fun k => if k = 0 then some "rejected" else none,
    fun _ => false, "0xTx"⟩

/-- Facilitator environment with a single requirement whose `payTo` is
absent; the settle call succeeds. -/
def envNoPayTo : Env :=
  ⟨⟨"pay-1", reqNoPayTo, none, none⟩, true, false, "0xFrom",
    fun k => "sig" ++ toString k, fun k => "nonce" ++ toString k,
    fun k => 1000 * k, fun _ => none, fun _ => false, "0xTx"⟩

/-- A requirement whose `maxAmountRequired` is absent. -/
def reqNoAmount : Requirement :=
  ⟨some "eip155:8453", none, some "0xPay", none, none⟩

/-- Facilitator environment whose requirement lacks `maxAmountRequired`. -/
def envNoAmount : Env :=
  ⟨⟨"pay-1", reqNoAmount, none, none⟩, true, false, "0xFrom",
    fun k => "sig" ++ toString k, fun k => "nonce" ++ toString k,
    fun k => 1000 * k, fun _ => none, fun _ => false, "0xTx"⟩

/-- The character list of `n.toString()`. -/
def decimalChars (n : ℕ) : List Char :=
  (natToDigitsBE n).map (fun d => Char.ofNat (d + 48))

theorem ofDigitsBE_append (l m : List ℕ) :
    ofDigitsBE (l ++ m) = ofDigitsBE l * 10 ^ m.length + ofDigitsBE m := by
  simp only [ofDigitsBE, List.reverse_append, Nat.ofDigits_append,
    List.length_reverse]
  ring

theorem ofDigitsBE_natToDigitsBE (n : ℕ) : ofDigitsBE (natToDigitsBE n) = n := by
  simp [ofDigitsBE, natToDigitsBE, Nat.ofDigits_digits]

theorem ofDigitsBE_replicate_zero (k : ℕ) :
    ofDigitsBE (List.replicate k 0) = 0 := by
  induction k with
  | zero => simp [ofDigitsBE]
  | succ k ih =>
      simp only [ofDigitsBE, List.reverse_replicate] at ih ⊢
      rw [List.replicate_succ, Nat.ofDigits_cons, ih]

theorem natToDigitsBE_lt (n : ℕ) : ∀ d ∈ natToDigitsBE n, d < 10 := by
  intro d hd
  exact Nat.digits_lt_base (by norm_num) (List.mem_reverse.mp hd)

theorem length_natToDigitsBE_le (f : ℕ) (h : f < 10 ^ 6) :
    (natToDigitsBE f).length ≤ 6 := by
  rcases Nat.eq_zero_or_pos f with hf | hf
  · subst hf; simp [natToDigitsBE]
  · have hne : f ≠ 0 := Nat.pos_iff_ne_zero.mp hf
    have hlen : (Nat.digits 10 f).length = Nat.log 10 f + 1 :=
      Nat.digits_len 10 f (by norm_num) hne
    have hlog : Nat.log 10 f < 6 := (Nat.lt_pow_iff_log_lt (by norm_num) hne).mp h
    simp only [natToDigitsBE, List.length_reverse, hlen]
    omega

theorem stripTrailingZeros_spec (l : List ℕ) :
    stripTrailingZeros l ++
      List.replicate (l.length - (stripTrailingZeros l).length) 0 = l := by
  have hsplit :
      l.reverse.takeWhile (fun d => d == 0) ++
        l.reverse.dropWhile (fun d => d == 0) = l.reverse :=
    List.takeWhile_append_dropWhile (fun d => d == 0) l.reverse
  have htake : l.reverse.takeWhile (fun d => d == 0) =
      List.replicate (l.reverse.takeWhile (fun d => d == 0)).length 0 := by
    apply List.eq_replicate_iff.mpr
    refine ⟨rfl, fun b hb => ?_⟩
    have hb2 := List.mem_takeWhile_imp hb
    simpa using hb2
  have htrev : (l.reverse.takeWhile (fun d => d == 0)).reverse =
      List.replicate (l.reverse.takeWhile (fun d => d == 0)).length 0 := by
    conv_lhs => rw [htake]
    exact List.reverse_replicate _ _
  have hlen2 : (stripTrailingZeros l).length =
      (l.reverse.dropWhile (fun d => d == 0)).length := by
    simp [stripTrailingZeros]
  have hlenr : l.length = (l.reverse.takeWhile (fun d => d == 0)).length +
      (l.reverse.dropWhile (fun d => d == 0)).length := by
    have hl := congrArg List.length hsplit
    simp only [List.length_append, List.length_reverse] at hl
    omega
  have harr : l.length - (stripTrailingZeros l).length =
      (l.reverse.takeWhile (fun d => d == 0)).length := by omega
  rw [harr, stripTrailingZeros, ← htrev, ← List.reverse_append, hsplit,
    List.reverse_reverse]

theorem stripTrailingZeros_length_le (l : List ℕ) :
    (stripTrailingZeros l).length ≤ l.length := by
  have h := (List.dropWhile_sublist (l := l.reverse) (fun d => d == 0)).length_le
  simpa [stripTrailingZeros] using h

theorem stripTrailingZeros_mem (l : List ℕ) :
    ∀ d ∈ stripTrailingZeros l, d ∈ l := by
  intro d hd
  simp only [stripTrailingZeros, List.mem_reverse] at hd
  exact List.mem_reverse.mp (List.dropWhile_subset _ hd)

theorem parseUSDC_whole (w : ℕ) :
    parseUSDC ⟨natToDigitsBE w, []⟩ = some (w * 1000000) := by
  have hpad : (padEnd6 ([] : List ℕ)).take 6 = List.replicate 6 0 := by
    simp [padEnd6]
  have hall : ∀ d ∈ natToDigitsBE w ++ List.replicate 6 (0 : ℕ), d < 10 := by
    intro d hd
    rcases List.mem_append.mp hd with hd | hd
    · exact natToDigitsBE_lt _ d hd
    · rw [List.eq_of_mem_replicate hd]; norm_num
  simp only [parseUSDC, hpad, jsBigInt]
  rw [if_pos (List.all_eq_true.mpr (fun d hd => decide_eq_true (hall d hd)))]
  rw [ofDigitsBE_append, ofDigitsBE_replicate_zero, ofDigitsBE_natToDigitsBE]
  norm_num

theorem parseUSDC_frac (w f : ℕ) (hlt : f < 10 ^ 6) :
    parseUSDC ⟨natToDigitsBE w, stripTrailingZeros (padStart6 (natToDigitsBE f))⟩ =
      some (w * 1000000 + f) := by
  have hplen : (padStart6 (natToDigitsBE f)).length = 6 := by
    have hd6 := length_natToDigitsBE_le f hlt
    simp only [padStart6, List.length_append, List.length_replicate]
    omega
  have hstrip : stripTrailingZeros (padStart6 (natToDigitsBE f)) ++
      List.replicate (6 - (stripTrailingZeros (padStart6 (natToDigitsBE f))).length) 0 =
      padStart6 (natToDigitsBE f) := by
    have hs := stripTrailingZeros_spec (padStart6 (natToDigitsBE f))
    rwa [hplen] at hs
  have hpmem : ∀ d ∈ padStart6 (natToDigitsBE f), d < 10 := by
    intro d hd
    rcases List.mem_append.mp hd with hd | hd
    · rw [List.eq_of_mem_replicate hd]; norm_num
    · exact natToDigitsBE_lt _ d hd
  have hall : ∀ d ∈ natToDigitsBE w ++ padStart6 (natToDigitsBE f), d < 10 := by
    intro d hd
    rcases List.mem_append.mp hd with hd | hd
    · exact natToDigitsBE_lt _ d hd
    · exact hpmem d hd
  have hofp : ofDigitsBE (padStart6 (natToDigitsBE f)) = f := by
    simp only [padStart6, ofDigitsBE_append, ofDigitsBE_replicate_zero,
      ofDigitsBE_natToDigitsBE]
    omega
  simp only [parseUSDC, padEnd6, hstrip]
  rw [List.take_of_length_le (le_of_eq hplen), jsBigInt]
  rw [if_pos (List.all_eq_true.mpr (fun d hd => decide_eq_true (hall d hd)))]
  rw [ofDigitsBE_append, ofDigitsBE_natToDigitsBE, hplen, hofp]
  norm_num

/-- C5 round trip: `parseUSDC (formatUSDC x) = x` for every base-unit amount. -/
theorem parseUSDC_formatUSDC (x : ℕ) : parseUSDC (formatUSDC x) = some x := by
  have hfrac_lt : x % 1000000 < 10 ^ 6 := by
    have hm := Nat.mod_lt x (y := 1000000) (by norm_num)
    norm_num
    exact hm
  by_cases h : x % 1000000 = 0
  · have hfmt : formatUSDC x = ⟨natToDigitsBE (x / 1000000), []⟩ := by
      simp [formatUSDC, h]
    rw [hfmt, parseUSDC_whole]
    have hx : x / 1000000 * 1000000 = x := Nat.div_mul_cancel (Nat.dvd_of_mod_eq_zero h)
    rw [hx]
  · have hfmt : formatUSDC x = ⟨natToDigitsBE (x / 1000000),
        stripTrailingZeros (padStart6 (natToDigitsBE (x % 1000000)))⟩ := by
      simp [formatUSDC, h]
    rw [hfmt, parseUSDC_frac _ _ hfrac_lt]
    rw [Nat.mul_comm, Nat.div_add_mod x 1000000]

/-- C1: if the signer has no `signTypedData`, `fundJob` throws the
`UnsupportedSigner` error before any network call is made: the call trace
is empty, so in particular zero resolver (`createIntent`) and zero
settlement (`settle`, `confirm`) calls occur. -/
theorem fundJob_requires_signTypedData (env : Env) (jobId proposalId : String)
    (options : FundJobOptions) (fuel : ℕ) (h : env.hasSignTypedData = false) :
    fundJob env jobId proposalId options fuel =
      (some (.error .unsupportedSignerTypedData), []) ∧
    countCalls isCreateIntent (fundJob env jobId proposalId options fuel).2 = 0 ∧
    countCalls isSettle (fundJob env jobId proposalId options fuel).2 = 0 ∧
    countCalls isConfirm (fundJob env jobId proposalId options fuel).2 = 0 := by
  have hrun : fundJob env jobId proposalId options fuel =
      (some (.error .unsupportedSignerTypedData), []) := by
    simp [fundJob, h]
  refine ⟨hrun, ?_, ?_, ?_⟩ <;> rw [hrun] <;> rfl

/-- C1 witness: a concrete signer without `signTypedData`. -/
theorem fundJob_requires_signTypedData_witness :
    fundJob envNoTypedData "job-1" "prop-1" noOpts 0 =
      (some (.error .unsupportedSignerTypedData), []) ∧
    countCalls isCreateIntent (fundJob envNoTypedData "job-1" "prop-1" noOpts 0).2 = 0 ∧
    countCalls isSettle (fundJob envNoTypedData "job-1" "prop-1" noOpts 0).2 = 0 ∧
    countCalls isConfirm (fundJob envNoTypedData "job-1" "prop-1" noOpts 0).2 = 0 :=
  fundJob_requires_signTypedData envNoTypedData "job-1" "prop-1" noOpts 0 rfl

/-- C3 counterexample: with a contract-mode requirement and a signer lacking
`sendTransaction`, the run performs one `signTypedData` call — a signature
IS produced — before the capability check fails, contradicting the claim
that the failure happens before `signTypedData` is invoked. -/
theorem fundJob_signs_despite_missing_sendTransaction :
    countCalls isSignTypedData (fundJob envNoSendTx "job-1" "prop-1" noOpts 0).2 = 1 ∧
    (fundJob envNoSendTx "job-1" "prop-1" noOpts 0).1 =
      some (.error .unsupportedSignerSendTransaction) := ⟨rfl, rfl⟩

/-- C3 amended: in contract mode with `sendTransaction` absent, `fundJob`
fails with the `UnsupportedSigner` error after exactly one `signTypedData`
call (the escrow authorization is signed, and wasted) and before any
`sendTransaction`, `settle` or `confirm` call. -/
theorem fundJob_unsupported_sendTransaction_after_sign (env : Env)
    (jobId proposalId : String) (options : FundJobOptions) (fuel : ℕ) (v : ℕ)
    (hsig : env.hasSignTypedData = true)
    (hmode : isContractMode env.intent.requirement = true)
    (hsend : env.hasSendTransaction = false)
    (hval : jsBigIntStr env.intent.requirement.maxAmountRequired = some v) :
    fundJob env jobId proposalId options fuel =
      (some (.error .unsupportedSignerSendTransaction),
        [NetCall.createIntent jobId proposalId, NetCall.getAddress,
          NetCall.signTypedData (eip712Domain env.intent.requirement)
            (escrowMessage env v)]) ∧
    countCalls isSignTypedData (fundJob env jobId proposalId options fuel).2 = 1 ∧
    countCalls isSendTransaction (fundJob env jobId proposalId options fuel).2 = 0 ∧
    countCalls isSettle (fundJob env jobId proposalId options fuel).2 = 0 ∧
    countCalls isConfirm (fundJob env jobId proposalId options fuel).2 = 0 := by
  have hrun : fundJob env jobId proposalId options fuel =
      (some (.error .unsupportedSignerSendTransaction),
        [NetCall.createIntent jobId proposalId, NetCall.getAddress,
          NetCall.signTypedData (eip712Domain env.intent.requirement)
            (escrowMessage env v)]) := by
    simp [fundJob, hsig, hmode, hsend, hval]
  refine ⟨hrun, ?_, ?_, ?_, ?_⟩ <;> rw [hrun] <;> rfl

/-- C3 witness: concrete contract-mode environment without
`sendTransaction`. -/
theorem fundJob_unsupported_sendTransaction_after_sign_witness :
    fundJob envNoSendTx "job-1" "prop-1" noOpts 0 =
      (some (.error .unsupportedSignerSendTransaction),
        [NetCall.createIntent "job-1" "prop-1", NetCall.getAddress,
          NetCall.signTypedData (eip712Domain envNoSendTx.intent.requirement)
            (escrowMessage envNoSendTx 1000000)]) ∧
    countCalls isSignTypedData (fundJob envNoSendTx "job-1" "prop-1" noOpts 0).2 = 1 ∧
    countCalls isSendTransaction (fundJob envNoSendTx "job-1" "prop-1" noOpts 0).2 = 0 ∧
    countCalls isSettle (fundJob envNoSendTx "job-1" "prop-1" noOpts 0).2 = 0 ∧
    countCalls isConfirm (fundJob envNoSendTx "job-1" "prop-1" noOpts 0).2 = 0 :=
  fundJob_unsupported_sendTransaction_after_sign envNoSendTx "job-1" "prop-1"
    noOpts 0 1000000 rfl rfl rfl rfl

/-- C7 counterexample: a requirement with `payTo` absent does not make
`fundJob` fail — the facilitator run succeeds, so `fundJob` does not fail
whenever `payTo` is missing. -/
theorem fundJob_missing_payTo_succeeds :
    envNoPayTo.intent.requirement.payTo = none ∧
    (fundJob envNoPayTo "job-1" "prop-1" noOpts 0).1 =
      some (.ok ⟨true, none, "pay-1", "facilitator"⟩) := ⟨rfl, rfl⟩

/-- C7 amended: `fundJob` fails — with the error of the `BigInt` conversion,
before any signing — whenever `maxAmountRequired` is missing or malformed;
`payTo` however is never validated: a facilitator run with `payTo` absent
still returns success. -/
theorem fundJob_amount_validation :
    (∀ (env : Env) (jobId proposalId : String) (options : FundJobOptions) (fuel : ℕ),
      env.hasSignTypedData = true →
      jsBigIntStr env.intent.requirement.maxAmountRequired = none →
      fundJob env jobId proposalId options fuel =
        (some (.error .bigIntConversion),
          [NetCall.createIntent jobId proposalId, NetCall.getAddress])) ∧
    (∀ (env : Env) (jobId proposalId : String) (options : FundJobOptions)
        (fuel v : ℕ),
      env.hasSignTypedData = true →
      isContractMode env.intent.requirement = false →
      env.intent.requirement.payTo = none →
      jsBigIntStr env.intent.requirement.maxAmountRequired = some v →
      env.intent.paymentIds = none →
      env.intent.requirements = none →
      env.settleOutcome 0 = none →
      (fundJob env jobId proposalId options fuel).1 =
        some (.ok ⟨true, none, env.intent.paymentId, "facilitator"⟩)) := by
  constructor
  · intro env jobId proposalId options fuel hsig hval
    simp [fundJob, hsig, hval]
  · intro env jobId proposalId options fuel v hsig hmode hpay hval hids hreqs hok
    simp [fundJob, hsig, hmode, hval, hids, hreqs, settleLoop, hok]

/-- C7 witness: concrete environments for both halves. -/
theorem fundJob_amount_validation_witness :
    fundJob envNoAmount "job-1" "prop-1" noOpts 0 =
      (some (.error .bigIntConversion),
        [NetCall.createIntent "job-1" "prop-1", NetCall.getAddress]) ∧
    (fundJob envNoPayTo "job-1" "prop-1" noOpts 0).1 =
      some (.ok ⟨true, none, envNoPayTo.intent.paymentId, "facilitator"⟩) :=
  ⟨fundJob_amount_validation.1 envNoAmount "job-1" "prop-1" noOpts 0 rfl rfl,
    fundJob_amount_validation.2 envNoPayTo "job-1" "prop-1" noOpts 0 1000000
      rfl rfl rfl rfl rfl rfl rfl⟩

theorem padEnd6_take_take (f : List ℕ) :
    (padEnd6 f).take 6 = (padEnd6 (f.take 6)).take 6 := by
  by_cases h : f.length ≤ 6
  · rw [List.take_of_length_le h]
  · have h6 : f.length ≥ 6 := by omega
    have hl : (f.take 6).length = 6 := by
      rw [List.length_take]
      omega
    simp only [padEnd6, hl, Nat.sub_self, List.replicate_zero, List.append_nil]
    have hz : 6 - f.length = 0 := by omega
    rw [hz, List.replicate_zero, List.append_nil, List.take_take]
    simp

/-- C10: `parseUSDC` truncates rather than rounds or rejects — on every
well-formed non-negative decimal string it returns a value (never throws),
and that value ignores every fractional digit beyond the sixth. -/
theorem parseUSDC_truncates (s : DecimalString)
    (hw : ∀ d ∈ s.whole, d < 10) (hf : ∀ d ∈ s.frac, d < 10) :
    (parseUSDC s).isSome = true ∧
    parseUSDC s = parseUSDC ⟨s.whole, s.frac.take 6⟩ := by
  constructor
  · have hall : ∀ d ∈ s.whole ++ (padEnd6 s.frac).take 6, d < 10 := by
      intro d hd
      rcases List.mem_append.mp hd with hd | hd
      · exact hw d hd
      · have hd2 : d ∈ padEnd6 s.frac := List.take_subset 6 _ hd
        rcases List.mem_append.mp hd2 with hd3 | hd3
        · exact hf d hd3
        · rw [List.eq_of_mem_replicate hd3]; norm_num
    rw [parseUSDC, jsBigInt,
      if_pos (List.all_eq_true.mpr (fun d hd => decide_eq_true (hall d hd)))]
    rfl
  · show jsBigInt _ = jsBigInt _
    rw [padEnd6_take_take]

/-- C10 witness: `"1.2345678"` parses to `1234567` base units — the digits
beyond the sixth are discarded — and parsing succeeds. -/
theorem parseUSDC_truncates_witness :
    ((parseUSDC ⟨[1], [2, 3, 4, 5, 6, 7, 8]⟩).isSome = true ∧
      parseUSDC ⟨[1], [2, 3, 4, 5, 6, 7, 8]⟩ = parseUSDC ⟨[1], [2, 3, 4, 5, 6, 7]⟩) ∧
    parseUSDC ⟨[1], [2, 3, 4, 5, 6, 7, 8]⟩ = some 1234567 :=
  ⟨parseUSDC_truncates ⟨[1], [2, 3, 4, 5, 6, 7, 8]⟩ (by decide) (by decide), rfl⟩

theorem splitOnColon_no_colon (l : List Char) (h : (':' : Char) ∉ l) :
    splitOnColon l = [l] := by
  induction l with
  | nil => rfl
  | cons c cs ih =>
      have hc : ¬c = ':' := by
        intro hc
        exact h (by rw [hc]; exact List.mem_cons_self _ _)
      have hcs : (':' : Char) ∉ cs := fun hm => h (List.mem_cons_of_mem c hm)
      simp only [splitOnColon, if_neg hc, ih hcs]

theorem splitOnColon_append (pre rest : List Char) (h : (':' : Char) ∉ pre) :
    splitOnColon (pre ++ ':' :: rest) = pre :: splitOnColon rest := by
  induction pre with
  | nil => simp [splitOnColon]
  | cons c pre ih =>
      have hc : ¬c = ':' := by
        intro hc
        exact h (by rw [hc]; exact List.mem_cons_self _ _)
      have hpre : (':' : Char) ∉ pre := fun hm => h (List.mem_cons_of_mem c hm)
      simp only [List.cons_append, splitOnColon, if_neg hc, List.append_eq, ih hpre]

theorem decimalChars_digit (n : ℕ) : ∀ c ∈ decimalChars n, c.isDigit = true := by
  intro c hc
  simp only [decimalChars, List.mem_map] at hc
  obtain ⟨d, hd, rfl⟩ := hc
  have hlt := natToDigitsBE_lt n d hd
  exact (show ∀ e, e < 10 → (Char.ofNat (e + 48)).isDigit = true by decide) d hlt

theorem decimalChars_no_colon (n : ℕ) : (':' : Char) ∉ decimalChars n := by
  intro hc
  simp only [decimalChars, List.mem_map] at hc
  obtain ⟨d, hd, heq⟩ := hc
  have hlt := natToDigitsBE_lt n d hd
  exact (show ∀ e, e < 10 → ¬Char.ofNat (e + 48) = ':' by decide) d hlt heq

theorem jsNumber_decimalChars (n : ℕ) : jsNumber (decimalChars n) = some n := by
  rcases Nat.eq_zero_or_pos n with h0 | hpos
  · subst h0
    simp [jsNumber, decimalChars, natToDigitsBE]
  · have hne : natToDigitsBE n ≠ [] := by
      simp only [natToDigitsBE, ne_eq, List.reverse_eq_nil_iff]
      exact Nat.digits_ne_nil_iff_ne_zero.mpr (Nat.pos_iff_ne_zero.mp hpos)
    have hnem : decimalChars n ≠ [] := by
      simp only [decimalChars, ne_eq, List.map_eq_nil_iff]
      exact hne
    have hempty : (decimalChars n).isEmpty = false := by
      rw [List.isEmpty_eq_false_iff_exists_mem]
      rcases List.exists_mem_of_ne_nil _ hnem with ⟨c, hc⟩
      exact ⟨c, hc⟩
    have hdig : (decimalChars n).all (fun c => c.isDigit) = true :=
      List.all_eq_true.mpr (fun c hc => decimalChars_digit n c hc)
    rw [jsNumber, hempty]
    simp only [Bool.false_eq_true, if_false, hdig, if_true]
    have hmap : (decimalChars n).map (fun c => c.toNat - 48) = natToDigitsBE n := by
      rw [decimalChars, List.map_map]
      have hcong : ∀ d ∈ natToDigitsBE n,
          ((fun c => c.toNat - 48) ∘ fun d => Char.ofNat (d + 48)) d = d := by
        intro d hd
        have hlt := natToDigitsBE_lt n d hd
        exact (show ∀ e, e < 10 → (Char.ofNat (e + 48)).toNat - 48 = e by decide) d hlt
      rw [List.map_congr_left hcong]
      simp
    rw [hmap, ofDigitsBE_natToDigitsBE]

/-- C6 counterexample: the network string `"eip155:"` is unparseable by the
numeric-suffix rule, yet the derived chain id is `0`, not the claimed 8453
default; `"eip155:x"` likewise yields `NaN` (`none`), not 8453. -/
theorem deriveChainId_unparseable_not_default :
    deriveChainId (some "eip155:") = some 0 ∧
    deriveChainId (some "eip155:x") = none ∧
    deriveChainId (some "eip155:") ≠ some 8453 ∧
    deriveChainId (some "eip155:x") ≠ some 8453 := by
  refine ⟨rfl, rfl, ?_, ?_⟩ <;> decide

/-- C6 amended: the chain id used for the EIP-712 domain (and passed to
`sendTransaction`) is `Number` of the text after the first colon of
`requirement.network`: a numeric suffix yields that number, and the 8453
default applies exactly when the network is absent or contains no colon; an
existing but non-numeric suffix does not default (it yields `0` or `NaN`).
The last conjunct ties the derivation to the run: every signing run builds
its EIP-712 domain with `deriveChainId requirement.network`. -/
theorem deriveChainId_colon_suffix :
    (∀ pre : List Char, (':' : Char) ∉ pre →
      deriveChainId (some (String.mk pre)) = some 8453) ∧
    deriveChainId none = some 8453 ∧
    (∀ (pre : List Char) (n : ℕ), (':' : Char) ∉ pre →
      deriveChainId (some (String.mk (pre ++ ':' :: decimalChars n))) = some n) ∧
    (∀ (env : Env) (jobId proposalId : String) (options : FundJobOptions)
        (fuel v : ℕ),
      env.hasSignTypedData = true →
      jsBigIntStr env.intent.requirement.maxAmountRequired = some v →
      ∃ rest, (fundJob env jobId proposalId options fuel).2 =
          NetCall.createIntent jobId proposalId :: NetCall.getAddress ::
            NetCall.signTypedData (eip712Domain env.intent.requirement)
              (escrowMessage env v) :: rest ∧
        (eip712Domain env.intent.requirement).chainId =
          deriveChainId env.intent.requirement.network) := by
  refine ⟨?_, rfl, ?_, ?_⟩
  · intro pre h
    rw [deriveChainId]
    have hs : (splitOnColon (String.mk pre).data) = [pre] := splitOnColon_no_colon pre h
    rw [show ((some (String.mk pre)).getD "").data = pre from rfl, hs]
    rfl
  · intro pre n h
    rw [deriveChainId]
    rw [show ((some (String.mk (pre ++ ':' :: decimalChars n))).getD "").data =
      pre ++ ':' :: decimalChars n from rfl]
    rw [splitOnColon_append pre _ h,
      splitOnColon_no_colon _ (decimalChars_no_colon n)]
    simpa using jsNumber_decimalChars n
  · intro env jobId proposalId options fuel v hsig hval
    simp only [fundJob, hsig, if_true, hval]
    by_cases hmode : isContractMode env.intent.requirement
    · by_cases hsend : env.hasSendTransaction
      · by_cases hwal : jsTruthy (agentExecutorWallet env.intent.requirement) &&
            jsTruthy (agentPayoutWallet env.intent.requirement)
        · simp only [hmode, hsend, hwal, if_true]
          cases hpoll : pollLoop env env.intent.paymentId env.txHash
              (options.pollIntervalMs.getD 5000) (options.timeoutMs.getD 180000)
              (env.dateNow 1) fuel 2 0 with
          | none => exact ⟨_, rfl, rfl⟩
          | some p => exact ⟨_, rfl, rfl⟩
        · simp only [hmode, hsend, hwal, if_true, Bool.false_eq_true, if_false]
          exact ⟨_, rfl, rfl⟩
      · simp only [hmode, hsend, if_true, Bool.false_eq_true, if_false]
        exact ⟨_, rfl, rfl⟩
    · simp only [hmode, Bool.false_eq_true, if_false]
      exact ⟨_, rfl, rfl⟩

/-- C6 witness: concrete instances — `"eip155"` (no colon) gives the 8453
default, `"eip155:8453"` parses to 8453, and a concrete run's domain uses
the derived chain id. -/
theorem deriveChainId_colon_suffix_witness :
    deriveChainId (some (String.mk ['e', 'i', 'p', '1', '5', '5'])) = some 8453 ∧
    deriveChainId (some (String.mk (['e', 'i', 'p', '1', '5', '5'] ++ ':' ::
      decimalChars 8453))) = some 8453 ∧
    ∃ rest, (fundJob envFacilitatorOk "job-1" "prop-1" noOpts 0).2 =
        NetCall.createIntent "job-1" "prop-1" :: NetCall.getAddress ::
          NetCall.signTypedData (eip712Domain envFacilitatorOk.intent.requirement)
            (escrowMessage envFacilitatorOk 1000000) :: rest ∧
      (eip712Domain envFacilitatorOk.intent.requirement).chainId =
        deriveChainId envFacilitatorOk.intent.requirement.network :=
  ⟨deriveChainId_colon_suffix.1 ['e', 'i', 'p', '1', '5', '5'] (by decide),
    deriveChainId_colon_suffix.2.2.1 ['e', 'i', 'p', '1', '5', '5'] 8453 (by decide),
    deriveChainId_colon_suffix.2.2.2 envFacilitatorOk "job-1" "prop-1" noOpts 0
      1000000 rfl rfl⟩

theorem pollLoop_settled (env : Env) (paymentId txHash : String)
    (pollInterval timeout start : ℕ) (N : ℕ) :
    ∀ (fuel timeIdx confIdx : ℕ),
      (∀ j, j < N → env.confirmSettled (confIdx + j) = false) →
      env.confirmSettled (confIdx + N) = true →
      (∀ j, j ≤ N → env.dateNow (timeIdx + j) - start < timeout) →
      N < fuel →
      pollLoop env paymentId txHash pollInterval timeout start fuel timeIdx confIdx =
        some (⟨true, some txHash, paymentId, "contract"⟩,
          (List.replicate N [NetCall.confirm paymentId txHash,
            NetCall.sleep pollInterval]).flatten ++ [NetCall.confirm paymentId txHash]) := by
  induction N with
  | zero =>
      intro fuel timeIdx confIdx hpend hset htime hfuel
      match fuel, hfuel with
      | fuel + 1, _ =>
        have ht0 := htime 0 (Nat.le_refl 0)
        simp only [Nat.add_zero] at ht0 hset
        simp [pollLoop, ht0, hset]
  | succ N ih =>
      intro fuel timeIdx confIdx hpend hset htime hfuel
      match fuel, hfuel with
      | fuel + 1, hfuel =>
        have ht0 := htime 0 (Nat.zero_le _)
        simp only [Nat.add_zero] at ht0
        have hp0 := hpend 0 (Nat.succ_pos _)
        simp only [Nat.add_zero] at hp0
        have hrec := ih fuel (timeIdx + 1) (confIdx + 1)
          (fun j hj => by
            have h2 := hpend (j + 1) (by omega)
            rw [show confIdx + (j + 1) = confIdx + 1 + j from by omega] at h2
            exact h2)
          (by
            rw [show confIdx + 1 + N = confIdx + (N + 1) from by omega]
            exact hset)
          (fun j hj => by
            have h2 := htime (j + 1) (by omega)
            rw [show timeIdx + (j + 1) = timeIdx + 1 + j from by omega] at h2
            exact h2)
          (by omega)
        simp [pollLoop, ht0, hp0, hrec, List.replicate_succ]

theorem pollLoop_timeout (env : Env) (paymentId txHash : String)
    (pollInterval timeout start : ℕ) (M : ℕ) :
    ∀ (fuel timeIdx confIdx : ℕ),
      (∀ j, j < M → env.confirmSettled (confIdx + j) = false) →
      (∀ j, j < M → env.dateNow (timeIdx + j) - start < timeout) →
      ¬(env.dateNow (timeIdx + M) - start < timeout) →
      M < fuel →
      pollLoop env paymentId txHash pollInterval timeout start fuel timeIdx confIdx =
        some (⟨false, some txHash, paymentId, "contract"⟩,
          (List.replicate M [NetCall.confirm paymentId txHash,
            NetCall.sleep pollInterval]).flatten) := by
  induction M with
  | zero =>
      intro fuel timeIdx confIdx hpend htime hout hfuel
      match fuel, hfuel with
      | fuel + 1, _ =>
        simp only [Nat.add_zero] at hout
        simp [pollLoop, hout]
  | succ M ih =>
      intro fuel timeIdx confIdx hpend htime hout hfuel
      match fuel, hfuel with
      | fuel + 1, hfuel =>
        have ht0 := htime 0 (Nat.succ_pos _)
        simp only [Nat.add_zero] at ht0
        have hp0 := hpend 0 (Nat.succ_pos _)
        simp only [Nat.add_zero] at hp0
        have hrec := ih fuel (timeIdx + 1) (confIdx + 1)
          (fun j hj => by
            have h2 := hpend (j + 1) (by omega)
            rw [show confIdx + (j + 1) = confIdx + 1 + j from by omega] at h2
            exact h2)
          (fun j hj => by
            have h2 := htime (j + 1) (by omega)
            rw [show timeIdx + (j + 1) = timeIdx + 1 + j from by omega] at h2
            exact h2)
          (by
            rw [show timeIdx + 1 + M = timeIdx + (M + 1) from by omega]
            exact hout)
          (by omega)
        simp [pollLoop, ht0, hp0, hrec, List.replicate_succ]

/-- C4: in contract mode after transaction submission, each poll iteration
calls `confirm(paymentId, txHash)`.  First conjunct: if the (N+1)-st
`confirm` reports `"settled"` (after N pending ones within the window), the
run returns `success: true` with the transaction hash immediately — the
trace ends at that `confirm`, with no further `confirm` calls.  Second
conjunct: if the window elapses after M pending polls, the run returns
`success: false` — without throwing — and the submitted transaction hash is
present in the timed-out result. -/
theorem fundJob_contract_confirm_poll (env : Env) (jobId proposalId : String)
    (options : FundJobOptions) (fuel : ℕ) (v : ℕ)
    (hsig : env.hasSignTypedData = true)
    (hmode : isContractMode env.intent.requirement = true)
    (hsend : env.hasSendTransaction = true)
    (hval : jsBigIntStr env.intent.requirement.maxAmountRequired = some v)
    (hwal : (jsTruthy (agentExecutorWallet env.intent.requirement) &&
      jsTruthy (agentPayoutWallet env.intent.requirement)) = true) :
    (∀ N, (∀ j, j < N → env.confirmSettled j = false) →
      env.confirmSettled N = true →
      (∀ j, j ≤ N →
        env.dateNow (2 + j) - env.dateNow 1 < options.timeoutMs.getD 180000) →
      N < fuel →
      fundJob env jobId proposalId options fuel =
        (some (.ok ⟨true, some env.txHash, env.intent.paymentId, "contract"⟩),
          [NetCall.createIntent jobId proposalId, NetCall.getAddress,
            NetCall.signTypedData (eip712Domain env.intent.requirement)
              (escrowMessage env v),
            NetCall.sendTransaction env.intent.requirement.payTo
              (deriveChainId env.intent.requirement.network)] ++
          (List.replicate N [NetCall.confirm env.intent.paymentId env.txHash,
            NetCall.sleep (options.pollIntervalMs.getD 5000)]).flatten ++
          [NetCall.confirm env.intent.paymentId env.txHash])) ∧
    (∀ M, (∀ j, j < M → env.confirmSettled j = false) →
      (∀ j, j < M →
        env.dateNow (2 + j) - env.dateNow 1 < options.timeoutMs.getD 180000) →
      ¬(env.dateNow (2 + M) - env.dateNow 1 < options.timeoutMs.getD 180000) →
      M < fuel →
      fundJob env jobId proposalId options fuel =
        (some (.ok ⟨false, some env.txHash, env.intent.paymentId, "contract"⟩),
          [NetCall.createIntent jobId proposalId, NetCall.getAddress,
            NetCall.signTypedData (eip712Domain env.intent.requirement)
              (escrowMessage env v),
            NetCall.sendTransaction env.intent.requirement.payTo
              (deriveChainId env.intent.requirement.network)] ++
          (List.replicate M [NetCall.confirm env.intent.paymentId env.txHash,
            NetCall.sleep (options.pollIntervalMs.getD 5000)]).flatten)) := by
  constructor
  · intro N hpend hset htime hfuel
    have hpoll := pollLoop_settled env env.intent.paymentId env.txHash
      (options.pollIntervalMs.getD 5000) (options.timeoutMs.getD 180000)
      (env.dateNow 1) N fuel 2 0
      (fun j hj => by simpa using hpend j hj)
      (by simpa using hset)
      (fun j hj => htime j hj)
      hfuel
    simp only [fundJob, hsig, if_true, hval, hmode, hsend, hwal, hpoll]
    simp
  · intro M hpend htime hout hfuel
    have hpoll := pollLoop_timeout env env.intent.paymentId env.txHash
      (options.pollIntervalMs.getD 5000) (options.timeoutMs.getD 180000)
      (env.dateNow 1) M fuel 2 0
      (fun j hj => by simpa using hpend j hj)
      (fun j hj => htime j hj)
      hout
      hfuel
    simp only [fundJob, hsig, if_true, hval, hmode, hsend, hwal, hpoll]
    simp

/-- C4 witness: concrete runs — `envContractSettles` settles on the second
poll and returns success with the hash; `envContractPending` never settles,
the 3 ms window elapses after two polls, and the run returns
`success: false` with the hash, without throwing. -/
theorem fundJob_contract_confirm_poll_witness :
    fundJob envContractSettles "job-1" "prop-1" fastOpts 5 =
      (some (.ok ⟨true, some "0xTx", "pay-1", "contract"⟩),
        [NetCall.createIntent "job-1" "prop-1", NetCall.getAddress,
          NetCall.signTypedData (eip712Domain envContractSettles.intent.requirement)
            (escrowMessage envContractSettles 1000000),
          NetCall.sendTransaction envContractSettles.intent.requirement.payTo
            (deriveChainId envContractSettles.intent.requirement.network)] ++
        (List.replicate 1 [NetCall.confirm "pay-1" "0xTx",
          NetCall.sleep 1]).flatten ++ [NetCall.confirm "pay-1" "0xTx"]) ∧
    fundJob envContractPending "job-1" "prop-1" fastOpts 5 =
      (some (.ok ⟨false, some "0xTx", "pay-1", "contract"⟩),
        [NetCall.createIntent "job-1" "prop-1", NetCall.getAddress,
          NetCall.signTypedData (eip712Domain envContractPending.intent.requirement)
            (escrowMessage envContractPending 1000000),
          NetCall.sendTransaction envContractPending.intent.requirement.payTo
            (deriveChainId envContractPending.intent.requirement.network)] ++
        (List.replicate 2 [NetCall.confirm "pay-1" "0xTx",
          NetCall.sleep 1]).flatten) :=
  ⟨(fundJob_contract_confirm_poll envContractSettles "job-1" "prop-1" fastOpts 5
      1000000 rfl rfl rfl rfl rfl).1 1 (by decide) (by decide) (by decide)
      (by decide),
    (fundJob_contract_confirm_poll envContractPending "job-1" "prop-1" fastOpts 5
      1000000 rfl rfl rfl rfl rfl).2 2 (by decide) (by decide) (by decide)
      (by decide)⟩

theorem settleIds_cons_sign (d : Eip712Domain) (m : TransferWithAuthorization)
    (tr : List NetCall) :
    settleIds (NetCall.signTypedData d m :: tr) = settleIds tr := rfl

theorem settleIds_cons_settle (pid : String) (h : PaymentHeader)
    (tr : List NetCall) :
    settleIds (NetCall.settle pid h :: tr) = pid :: settleIds tr := rfl

theorem settleIds_append (a b : List NetCall) :
    settleIds (a ++ b) = settleIds a ++ settleIds b := by
  simp [settleIds, List.filterMap_append]

theorem settleLoop_ok (env : Env) (domain : Eip712Domain) (fromAddr : String)
    (network : Option String) (validBefore0 : ℕ) (header0 : PaymentHeader)
    (reqs : List Requirement) (paymentId : String) :
    ∀ (ids : List String) (i sigIdx nonIdx timeIdx : ℕ),
      (∀ j, j < ids.length → env.settleOutcome (i + j) = none) →
      (∀ j r, j < ids.length → 0 < i + j → reqs.get? (i + j) = some r →
        (jsBigIntStr r.maxAmountRequired).isSome = true) →
      (settleLoop env domain fromAddr network validBefore0 header0 reqs paymentId
          ids i sigIdx nonIdx timeIdx).1 =
        .ok ⟨true, none, paymentId, "facilitator"⟩ ∧
      settleIds (settleLoop env domain fromAddr network validBefore0 header0 reqs
          paymentId ids i sigIdx nonIdx timeIdx).2 = ids := by
  intro ids
  induction ids with
  | nil =>
      intro i sigIdx nonIdx timeIdx hok hfee
      exact ⟨rfl, rfl⟩
  | cons pid rest ih =>
      intro i sigIdx nonIdx timeIdx hok hfee
      have hok0 : env.settleOutcome i = none := by
        have h0 := hok 0 (by simp)
        simpa using h0
      have hokr : ∀ j, j < rest.length → env.settleOutcome (i + 1 + j) = none := by
        intro j hj
        have h2 := hok (j + 1) (by simp only [List.length_cons]; omega)
        rw [show i + (j + 1) = i + 1 + j from by omega] at h2
        exact h2
      have hfeer : ∀ j r, j < rest.length → 0 < i + 1 + j →
          reqs.get? (i + 1 + j) = some r →
          (jsBigIntStr r.maxAmountRequired).isSome = true := by
        intro j r hj hpos hr
        exact hfee (j + 1) r (by simp only [List.length_cons]; omega) (by omega)
          (by rw [show i + (j + 1) = i + 1 + j from by omega]; exact hr)
      by_cases hi : 0 < i
      · cases hr : reqs.get? i with
        | none =>
            have hrec := ih (i + 1) sigIdx nonIdx timeIdx hokr hfeer
            refine ⟨?_, ?_⟩
            · simp only [settleLoop, if_pos hi, hr, hok0]
              exact hrec.1
            · simp only [settleLoop, if_pos hi, hr, hok0, settleIds_cons_settle]
              rw [hrec.2]
        | some r =>
            have hfv := hfee 0 r (by simp) (by simpa using hi) (by simpa using hr)
            obtain ⟨fv, hfv2⟩ := Option.isSome_iff_exists.mp hfv
            have hrec := ih (i + 1) (sigIdx + 1) (nonIdx + 1) (timeIdx + 1) hokr hfeer
            refine ⟨?_, ?_⟩
            · simp only [settleLoop, if_pos hi, hr, hfv2, hok0]
              exact hrec.1
            · simp only [settleLoop, if_pos hi, hr, hfv2, hok0,
                settleIds_cons_sign, settleIds_cons_settle]
              rw [hrec.2]
      · have hrec := ih (i + 1) sigIdx nonIdx timeIdx hokr hfeer
        refine ⟨?_, ?_⟩
        · simp only [settleLoop, if_neg hi, hok0]
          exact hrec.1
        · simp only [settleLoop, if_neg hi, hok0, settleIds_cons_settle]
          rw [hrec.2]

theorem settleLoop_fail (env : Env) (domain : Eip712Domain) (fromAddr : String)
    (network : Option String) (validBefore0 : ℕ) (header0 : PaymentHeader)
    (reqs : List Requirement) (paymentId : String) :
    ∀ (ids : List String) (k : ℕ) (msg : String) (i sigIdx nonIdx timeIdx : ℕ),
      k < ids.length →
      (∀ j, j < k → env.settleOutcome (i + j) = none) →
      env.settleOutcome (i + k) = some msg →
      (∀ j r, j ≤ k → 0 < i + j → reqs.get? (i + j) = some r →
        (jsBigIntStr r.maxAmountRequired).isSome = true) →
      (settleLoop env domain fromAddr network validBefore0 header0 reqs paymentId
          ids i sigIdx nonIdx timeIdx).1 =
        .error (.settleFailed (i + k) msg) ∧
      settleIds (settleLoop env domain fromAddr network validBefore0 header0 reqs
          paymentId ids i sigIdx nonIdx timeIdx).2 = ids.take (k + 1) := by
  intro ids
  induction ids with
  | nil =>
      intro k msg i sigIdx nonIdx timeIdx hk
      simp at hk
  | cons pid rest ih =>
      intro k msg i sigIdx nonIdx timeIdx hk hpend hfail hfee
      cases k with
      | zero =>
          simp only [Nat.add_zero] at hfail
          by_cases hi : 0 < i
          · cases hr : reqs.get? i with
            | none =>
                refine ⟨?_, ?_⟩
                · simp only [settleLoop, if_pos hi, hr, hfail, Nat.add_zero]
                · simp only [settleLoop, if_pos hi, hr, hfail,
                    settleIds_cons_settle, List.take_succ_cons, List.take_zero]
                  rfl
            | some r =>
                have hfv := hfee 0 r (Nat.le_refl 0) (by simpa using hi)
                  (by simpa using hr)
                obtain ⟨fv, hfv2⟩ := Option.isSome_iff_exists.mp hfv
                refine ⟨?_, ?_⟩
                · simp only [settleLoop, if_pos hi, hr, hfv2, hfail, Nat.add_zero]
                · simp only [settleLoop, if_pos hi, hr, hfv2, hfail,
                    settleIds_cons_sign, settleIds_cons_settle,
                    List.take_succ_cons, List.take_zero]
                  rfl
          · refine ⟨?_, ?_⟩
            · simp only [settleLoop, if_neg hi, hfail, Nat.add_zero]
            · simp only [settleLoop, if_neg hi, hfail, settleIds_cons_settle,
                List.take_succ_cons, List.take_zero]
              rfl
      | succ k =>
          have hok0 : env.settleOutcome i = none := by
            have h0 := hpend 0 (Nat.succ_pos _)
            simpa using h0
          have hpendr : ∀ j, j < k → env.settleOutcome (i + 1 + j) = none := by
            intro j hj
            have h2 := hpend (j + 1) (by omega)
            rw [show i + (j + 1) = i + 1 + j from by omega] at h2
            exact h2
          have hfailr : env.settleOutcome (i + 1 + k) = some msg := by
            rw [show i + 1 + k = i + (k + 1) from by omega]
            exact hfail
          have hfeer : ∀ j r, j ≤ k → 0 < i + 1 + j →
              reqs.get? (i + 1 + j) = some r →
              (jsBigIntStr r.maxAmountRequired).isSome = true := by
            intro j r hj hpos hr
            exact hfee (j + 1) r (by omega) (by omega)
              (by rw [show i + (j + 1) = i + 1 + j from by omega]; exact hr)
          have hkr : k < rest.length := by
            simp only [List.length_cons] at hk
            omega
          have heq : i + 1 + k = i + (k + 1) := by omega
          by_cases hi : 0 < i
          · cases hr : reqs.get? i with
            | none =>
                have hrec := ih k msg (i + 1) sigIdx nonIdx timeIdx hkr hpendr
                  hfailr hfeer
                refine ⟨?_, ?_⟩
                · simp only [settleLoop, if_pos hi, hr, hok0]
                  rw [hrec.1, heq]
                · simp only [settleLoop, if_pos hi, hr, hok0,
                    settleIds_cons_settle, List.take_succ_cons]
                  rw [hrec.2]
            | some r =>
                have hfv := hfee 0 r (Nat.zero_le _) (by simpa using hi)
                  (by simpa using hr)
                obtain ⟨fv, hfv2⟩ := Option.isSome_iff_exists.mp hfv
                have hrec := ih k msg (i + 1) (sigIdx + 1) (nonIdx + 1)
                  (timeIdx + 1) hkr hpendr hfailr hfeer
                refine ⟨?_, ?_⟩
                · simp only [settleLoop, if_pos hi, hr, hfv2, hok0]
                  rw [hrec.1, heq]
                · simp only [settleLoop, if_pos hi, hr, hfv2, hok0,
                    settleIds_cons_sign, settleIds_cons_settle,
                    List.take_succ_cons]
                  rw [hrec.2]
          · have hrec := ih k msg (i + 1) sigIdx nonIdx timeIdx hkr hpendr
              hfailr hfeer
            refine ⟨?_, ?_⟩
            · simp only [settleLoop, if_neg hi, hok0]
              rw [hrec.1, heq]
            · simp only [settleLoop, if_neg hi, hok0, settleIds_cons_settle,
                List.take_succ_cons]
              rw [hrec.2]

/-- C8: in facilitator mode the settle calls are issued strictly in batch
order — the payment ids of the settle calls in the trace are always a
prefix of the batch (so requirement 0's settle precedes requirement 1's, in
the sequential trace).  First conjunct: when every settle call succeeds the
run settles the whole batch, in order, and returns success.  Second
conjunct: when the first failing settle call is the k-th, the whole batch
fails with that error propagated, and the settle calls stop at index k —
none are attempted after it. -/
theorem fundJob_settle_sequencing (env : Env) (jobId proposalId : String)
    (options : FundJobOptions) (fuel : ℕ) (ids : List String) (v : ℕ)
    (hsig : env.hasSignTypedData = true)
    (hmode : isContractMode env.intent.requirement = false)
    (hval : jsBigIntStr env.intent.requirement.maxAmountRequired = some v)
    (hids : env.intent.paymentIds = some ids)
    (_hlen : 2 ≤ ids.length)
    (hfee : ∀ j, j < ids.length → 0 < j →
      (((env.intent.requirements.getD [env.intent.requirement]).get? j).all
        (fun r => (jsBigIntStr r.maxAmountRequired).isSome)) = true) :
    ((∀ j, j < ids.length → env.settleOutcome j = none) →
      (fundJob env jobId proposalId options fuel).1 =
        some (.ok ⟨true, none, env.intent.paymentId, "facilitator"⟩) ∧
      settleIds (fundJob env jobId proposalId options fuel).2 = ids) ∧
    (∀ k msg, k < ids.length →
      (∀ j, j < k → env.settleOutcome j = none) →
      env.settleOutcome k = some msg →
      (fundJob env jobId proposalId options fuel).1 =
        some (.error (.settleFailed k msg)) ∧
      settleIds (fundJob env jobId proposalId options fuel).2 =
        ids.take (k + 1)) := by
  have hrun : fundJob env jobId proposalId options fuel =
      (some (settleLoop env (eip712Domain env.intent.requirement) env.address
          env.intent.requirement.network (env.dateNow 0 / 1000 + 300)
          ⟨1, "exact", env.intent.requirement.network, env.signTypedDataResult 0,
            escrowMessage env v⟩
          (env.intent.requirements.getD [env.intent.requirement])
          env.intent.paymentId ids 0 1 1 1).1,
        [NetCall.createIntent jobId proposalId, NetCall.getAddress,
          NetCall.signTypedData (eip712Domain env.intent.requirement)
            (escrowMessage env v)] ++
        (settleLoop env (eip712Domain env.intent.requirement) env.address
          env.intent.requirement.network (env.dateNow 0 / 1000 + 300)
          ⟨1, "exact", env.intent.requirement.network, env.signTypedDataResult 0,
            escrowMessage env v⟩
          (env.intent.requirements.getD [env.intent.requirement])
          env.intent.paymentId ids 0 1 1 1).2) := by
    simp only [fundJob, hsig, if_true, hval, hmode, Bool.false_eq_true, if_false,
      hids, Option.getD_some]
    rfl
  constructor
  · intro hok
    have hloop := settleLoop_ok env (eip712Domain env.intent.requirement)
      env.address env.intent.requirement.network (env.dateNow 0 / 1000 + 300)
      ⟨1, "exact", env.intent.requirement.network, env.signTypedDataResult 0,
        escrowMessage env v⟩
      (env.intent.requirements.getD [env.intent.requirement])
      env.intent.paymentId ids 0 1 1 1
      (fun j hj => by simpa using hok j hj)
      (fun j r hj hpos hr => by
        have h2 := hfee j hj (by simpa using hpos)
        rw [show (0 : ℕ) + j = j from by omega] at hr
        rw [hr] at h2
        simpa using h2)
    rw [hrun]
    refine ⟨by rw [hloop.1], ?_⟩
    rw [settleIds_append, hloop.2]
    rfl
  · intro k msg hk hpend hfail
    have hloop := settleLoop_fail env (eip712Domain env.intent.requirement)
      env.address env.intent.requirement.network (env.dateNow 0 / 1000 + 300)
      ⟨1, "exact", env.intent.requirement.network, env.signTypedDataResult 0,
        escrowMessage env v⟩
      (env.intent.requirements.getD [env.intent.requirement])
      env.intent.paymentId ids k msg 0 1 1 1 hk
      (fun j hj => by simpa using hpend j hj)
      (by simpa using hfail)
      (fun j r hj hpos hr => by
        have h2 := hfee j (by omega) (by simpa using hpos)
        rw [show (0 : ℕ) + j = j from by omega] at hr
        rw [hr] at h2
        simpa using h2)
    rw [hrun]
    refine ⟨?_, ?_⟩
    · rw [hloop.1]
      simp
    · rw [settleIds_append, hloop.2]
      rfl

/-- C8 witness: the two-requirement batch — all settles succeed in
`envFacilitatorOk` (both ids settled, in order), and in
`envFacilitatorFail0` the first settle is rejected, the error propagates,
and no second settle call is attempted. -/
theorem fundJob_settle_sequencing_witness :
    ((fundJob envFacilitatorOk "job-1" "prop-1" noOpts 0).1 =
        some (.ok ⟨true, none, "pay-0", "facilitator"⟩) ∧
      settleIds (fundJob envFacilitatorOk "job-1" "prop-1" noOpts 0).2 =
        ["pay-0", "pay-1"]) ∧
    ((fundJob envFacilitatorFail0 "job-1" "prop-1" noOpts 0).1 =
        some (.error (.settleFailed 0 "rejected")) ∧
      settleIds (fundJob envFacilitatorFail0 "job-1" "prop-1" noOpts 0).2 =
        ["pay-0", "pay-1"].take 1) :=
  ⟨(fundJob_settle_sequencing envFacilitatorOk "job-1" "prop-1" noOpts 0
      ["pay-0", "pay-1"] 1000000 rfl rfl rfl rfl (by decide)
      (by decide)).1 (by decide),
    (fundJob_settle_sequencing envFacilitatorFail0 "job-1" "prop-1" noOpts 0
      ["pay-0", "pay-1"] 1000000 rfl rfl rfl rfl (by decide)
      (by decide)).2 0 "rejected" (by decide) (by decide) rfl⟩

theorem settleLoop_fee_member (env : Env) (domain : Eip712Domain)
    (fromAddr : String) (network : Option String) (validBefore0 : ℕ)
    (header0 : PaymentHeader) (reqs : List Requirement) (paymentId : String) :
    ∀ (ids : List String) (i0 : ℕ), 1 ≤ i0 →
      ∀ j, i0 ≤ j → j < i0 + ids.length →
      (∀ m, i0 ≤ m → m < j → env.settleOutcome m = none) →
      (∀ m, i0 ≤ m → m ≤ j → ((reqs.get? m).all
        (fun q => (jsBigIntStr q.maxAmountRequired).isSome)) = true) →
      (∀ m, i0 ≤ m → m ≤ j → (reqs.get? m).isSome = true) →
      ∀ pid r fv, ids.get? (j - i0) = some pid → reqs.get? j = some r →
        jsBigIntStr r.maxAmountRequired = some fv →
        NetCall.signTypedData domain (feeSignedMessage env fromAddr r fv j j) ∈
          (settleLoop env domain fromAddr network validBefore0 header0 reqs
            paymentId ids i0 i0 i0 i0).2 ∧
        NetCall.settle pid (feeHeader env fromAddr network validBefore0 r fv j j) ∈
          (settleLoop env domain fromAddr network validBefore0 header0 reqs
            paymentId ids i0 i0 i0 i0).2 := by
  intro ids
  induction ids with
  | nil =>
      intro i0 hi0 j hj1 hj2
      simp only [List.length_nil, Nat.add_zero] at hj2
      omega
  | cons pid0 rest ih =>
      intro i0 hi0 j hj1 hj2 hok hpar hpres pid r fv hpid hr hfv
      have hipos : 0 < i0 := hi0
      rcases Nat.eq_or_lt_of_le hj1 with hji | hji
      · -- j = i0: this iteration signs and settles requirement j
        subst hji
        have hpid0 : pid = pid0 := by
          rw [Nat.sub_self] at hpid
          simpa using hpid.symm
        subst hpid0
        cases hout : env.settleOutcome i0 with
        | some msg =>
            refine ⟨?_, ?_⟩ <;>
              · simp only [settleLoop, if_pos hipos, hr, hfv, hout]
                simp
        | none =>
            refine ⟨?_, ?_⟩ <;>
              · simp only [settleLoop, if_pos hipos, hr, hfv, hout]
                simp
      · -- i0 < j: requirement i0 settles, then recurse at i0 + 1
        have hout0 : env.settleOutcome i0 = none :=
          hok i0 (Nat.le_refl i0) hji
        have hpres0 := hpres i0 (Nat.le_refl i0) (Nat.le_of_lt hji)
        obtain ⟨r0, hr0⟩ := Option.isSome_iff_exists.mp hpres0
        have hpar0 := hpar i0 (Nat.le_refl i0) (Nat.le_of_lt hji)
        rw [hr0] at hpar0
        obtain ⟨fv0, hfv0⟩ := Option.isSome_iff_exists.mp (by simpa using hpar0)
        have hrec := ih (i0 + 1) (by omega) j (by omega)
          (by
            simp only [List.length_cons] at hj2
            omega)
          (fun m hm1 hm2 => hok m (by omega) hm2)
          (fun m hm1 hm2 => hpar m (by omega) hm2)
          (fun m hm1 hm2 => hpres m (by omega) hm2)
          pid r fv
          (by
            have hsub : j - i0 = (j - (i0 + 1)) + 1 := by omega
            rw [hsub] at hpid
            simpa using hpid)
          hr hfv
        refine ⟨?_, ?_⟩ <;>
          · simp only [settleLoop, if_pos hipos, hr0, hfv0, hout0]
            simp only [List.mem_cons]
            right; right
            first
              | exact hrec.1
              | exact hrec.2

/-- C2: in facilitator mode, requirement `i > 0` is signed and settled with
an authorization that is built independently of requirement 0's: its nonce
is the i-th fresh `randomBytes32Hex` draw (requirement 0 uses draw 0; the
hypothesis `hnon` — distinct draws yield distinct values — models the
32-byte randomness whose collisions the spec rules out), its `validBefore`
comes from the i-th `Date.now()` read taken at its own sign time
(requirement 0 uses read 0; when the clock has moved to a later second the
two values differ), and its signature is the return of the i-th
`signTypedData` call, not requirement 0's.  The first two conjuncts place
these objects in the actual run trace. -/
theorem fundJob_fee_requirement_independent (env : Env)
    (jobId proposalId : String) (options : FundJobOptions) (fuel : ℕ)
    (ids : List String) (reqs : List Requirement) (v i : ℕ) (pid : String)
    (r : Requirement) (fv : ℕ)
    (hsig : env.hasSignTypedData = true)
    (hmode : isContractMode env.intent.requirement = false)
    (hval : jsBigIntStr env.intent.requirement.maxAmountRequired = some v)
    (hids : env.intent.paymentIds = some ids)
    (hreqs : env.intent.requirements = some reqs)
    (hi0 : 0 < i) (hilen : i < ids.length)
    (hok : ∀ m, m < i → env.settleOutcome m = none)
    (hpar : ∀ m, 1 ≤ m → m ≤ i → ((reqs.get? m).all
      (fun q => (jsBigIntStr q.maxAmountRequired).isSome)) = true)
    (hpres : ∀ m, 1 ≤ m → m ≤ i → (reqs.get? m).isSome = true)
    (hpid : ids.get? i = some pid)
    (hr : reqs.get? i = some r)
    (hfv : jsBigIntStr r.maxAmountRequired = some fv)
    (hnon : ∀ a b, a < ids.length → b < ids.length → a ≠ b →
      env.randomBytes32Hex a ≠ env.randomBytes32Hex b) :
    NetCall.signTypedData (eip712Domain env.intent.requirement)
      (feeSignedMessage env env.address r fv i i) ∈
      (fundJob env jobId proposalId options fuel).2 ∧
    NetCall.settle pid (feeHeader env env.address env.intent.requirement.network
      (env.dateNow 0 / 1000 + 300) r fv i i) ∈
      (fundJob env jobId proposalId options fuel).2 ∧
    (feeSignedMessage env env.address r fv i i).nonce =
      env.randomBytes32Hex i ∧
    (feeHeader env env.address env.intent.requirement.network
      (env.dateNow 0 / 1000 + 300) r fv i i).authorization.nonce =
      env.randomBytes32Hex i ∧
    (escrowMessage env v).nonce = env.randomBytes32Hex 0 ∧
    (∀ b, b < ids.length → b ≠ i →
      env.randomBytes32Hex b ≠ (feeSignedMessage env env.address r fv i i).nonce) ∧
    (feeSignedMessage env env.address r fv i i).validBefore =
      env.dateNow i / 1000 + 300 ∧
    (escrowMessage env v).validBefore = env.dateNow 0 / 1000 + 300 ∧
    (env.dateNow i / 1000 ≠ env.dateNow 0 / 1000 →
      (feeSignedMessage env env.address r fv i i).validBefore ≠
        (escrowMessage env v).validBefore) ∧
    (feeHeader env env.address env.intent.requirement.network
      (env.dateNow 0 / 1000 + 300) r fv i i).signature =
      env.signTypedDataResult i ∧
    0 < i := by
  have hrun : (fundJob env jobId proposalId options fuel).2 =
      [NetCall.createIntent jobId proposalId, NetCall.getAddress,
        NetCall.signTypedData (eip712Domain env.intent.requirement)
          (escrowMessage env v)] ++
      (settleLoop env (eip712Domain env.intent.requirement) env.address
        env.intent.requirement.network (env.dateNow 0 / 1000 + 300)
        ⟨1, "exact", env.intent.requirement.network, env.signTypedDataResult 0,
          escrowMessage env v⟩
        reqs env.intent.paymentId ids 0 1 1 1).2 := by
    simp only [fundJob, hsig, if_true, hval, hmode, Bool.false_eq_true, if_false,
      hids, hreqs, Option.getD_some]
    rfl
  obtain ⟨pid0, rest, rfl⟩ : ∃ pid0 rest, ids = pid0 :: rest := by
    cases ids with
    | nil => simp at hilen
    | cons a l => exact ⟨a, l, rfl⟩
  have hout0 : env.settleOutcome 0 = none := hok 0 hi0
  have hunfold : (settleLoop env (eip712Domain env.intent.requirement) env.address
      env.intent.requirement.network (env.dateNow 0 / 1000 + 300)
      ⟨1, "exact", env.intent.requirement.network, env.signTypedDataResult 0,
        escrowMessage env v⟩
      reqs env.intent.paymentId (pid0 :: rest) 0 1 1 1).2 =
      NetCall.settle pid0 ⟨1, "exact", env.intent.requirement.network,
        env.signTypedDataResult 0, escrowMessage env v⟩ ::
      (settleLoop env (eip712Domain env.intent.requirement) env.address
        env.intent.requirement.network (env.dateNow 0 / 1000 + 300)
        ⟨1, "exact", env.intent.requirement.network, env.signTypedDataResult 0,
          escrowMessage env v⟩
        reqs env.intent.paymentId rest 1 1 1 1).2 := by
    simp [settleLoop, hout0]
  have hmem := settleLoop_fee_member env (eip712Domain env.intent.requirement)
    env.address env.intent.requirement.network (env.dateNow 0 / 1000 + 300)
    ⟨1, "exact", env.intent.requirement.network, env.signTypedDataResult 0,
      escrowMessage env v⟩
    reqs env.intent.paymentId rest 1 (Nat.le_refl 1) i hi0
    (by
      simp only [List.length_cons] at hilen
      omega)
    (fun m hm1 hm2 => hok m hm2)
    (fun m hm1 hm2 => hpar m hm1 (Nat.le_of_lt_succ (Nat.lt_succ_of_le hm2)))
    (fun m hm1 hm2 => hpres m hm1 (Nat.le_of_lt_succ (Nat.lt_succ_of_le hm2)))
    pid r fv
    (by
      have hsub : (i : ℕ) = (i - 1) + 1 := by omega
      rw [hsub] at hpid
      simpa using hpid)
    hr hfv
  refine ⟨?_, ?_, rfl, rfl, rfl, ?_, rfl, rfl, ?_, rfl, hi0⟩
  · rw [hrun, hunfold]
    simp only [List.mem_append, List.mem_cons]
    right; right
    exact hmem.1
  · rw [hrun, hunfold]
    simp only [List.mem_append, List.mem_cons]
    right; right
    exact hmem.2
  · intro b hb hbne
    exact hnon b i hb hilen hbne
  · intro hclock
    simp only [feeSignedMessage, escrowMessage]
    omega

/-- C2 witness: concrete two-requirement facilitator batch; the fee
requirement (index 1) is signed over draw 1 / read 1 / signature 1, all
distinct from requirement 0's draw 0 / read 0 / signature 0. -/
theorem fundJob_fee_requirement_independent_witness :
    NetCall.signTypedData (eip712Domain envFacilitatorOk.intent.requirement)
      (feeSignedMessage envFacilitatorOk envFacilitatorOk.address reqFee 50000 1 1) ∈
      (fundJob envFacilitatorOk "job-1" "prop-1" noOpts 0).2 ∧
    NetCall.settle "pay-1" (feeHeader envFacilitatorOk envFacilitatorOk.address
      envFacilitatorOk.intent.requirement.network
      (envFacilitatorOk.dateNow 0 / 1000 + 300) reqFee 50000 1 1) ∈
      (fundJob envFacilitatorOk "job-1" "prop-1" noOpts 0).2 ∧
    (feeSignedMessage envFacilitatorOk envFacilitatorOk.address reqFee 50000 1 1).nonce =
      envFacilitatorOk.randomBytes32Hex 1 ∧
    (feeHeader envFacilitatorOk envFacilitatorOk.address
      envFacilitatorOk.intent.requirement.network
      (envFacilitatorOk.dateNow 0 / 1000 + 300) reqFee 50000 1 1).authorization.nonce =
      envFacilitatorOk.randomBytes32Hex 1 ∧
    (escrowMessage envFacilitatorOk 1000000).nonce =
      envFacilitatorOk.randomBytes32Hex 0 ∧
    (∀ b, b < (["pay-0", "pay-1"] : List String).length → b ≠ 1 →
      envFacilitatorOk.randomBytes32Hex b ≠
        (feeSignedMessage envFacilitatorOk envFacilitatorOk.address
          reqFee 50000 1 1).nonce) ∧
    (feeSignedMessage envFacilitatorOk envFacilitatorOk.address
      reqFee 50000 1 1).validBefore = envFacilitatorOk.dateNow 1 / 1000 + 300 ∧
    (escrowMessage envFacilitatorOk 1000000).validBefore =
      envFacilitatorOk.dateNow 0 / 1000 + 300 ∧
    (envFacilitatorOk.dateNow 1 / 1000 ≠ envFacilitatorOk.dateNow 0 / 1000 →
      (feeSignedMessage envFacilitatorOk envFacilitatorOk.address
        reqFee 50000 1 1).validBefore ≠
        (escrowMessage envFacilitatorOk 1000000).validBefore) ∧
    (feeHeader envFacilitatorOk envFacilitatorOk.address
      envFacilitatorOk.intent.requirement.network
      (envFacilitatorOk.dateNow 0 / 1000 + 300) reqFee 50000 1 1).signature =
      envFacilitatorOk.signTypedDataResult 1 ∧
    0 < 1 :=
  fundJob_fee_requirement_independent envFacilitatorOk "job-1" "prop-1" noOpts 0
    ["pay-0", "pay-1"] [reqFacilitator, reqFee] 1000000 1 "pay-1" reqFee 50000
    rfl rfl rfl rfl rfl (by decide) (by decide)
    (fun m hm => rfl)
    (by
      intro m h1 h2
      have hm : m = 1 := by omega
      subst hm
      rfl)
    (by
      intro m h1 h2
      have hm : m = 1 := by omega
      subst hm
      rfl)
    rfl rfl rfl
    (by
      intro a b ha hb hne
      simp only [List.length_cons, List.length_nil] at ha hb
      interval_cases a <;> interval_cases b <;>
        first
          | exact absurd rfl hne
          | decide)

/-- C9 (code bug evidence): in the concrete facilitator run
`envFacilitatorOk` — fee requirement present, clock advancing one second
between the two `Date.now()` reads — requirement 0's settle header equals
its signed message exactly, but the fee requirement's header encodes
`validBefore = 300` (requirement 0's value) while the message actually
signed for the fee carried `validBefore = 301`; nonce and value agree and
the header carries the signature of the `301` message, so the encoded
authorization is not the message that was signed. -/
theorem fundJob_fee_header_validBefore_mismatch :
    ((signedMessages (fundJob envFacilitatorOk "job-1" "prop-1" noOpts 0).2).get? 0) =
      ((settleCalls (fundJob envFacilitatorOk "job-1" "prop-1" noOpts 0).2).get? 0).map
        (fun c => c.2.authorization) ∧
    ((signedMessages (fundJob envFacilitatorOk "job-1" "prop-1" noOpts 0).2).get? 1).map
      (fun m => m.validBefore) = some 301 ∧
    ((settleCalls (fundJob envFacilitatorOk "job-1" "prop-1" noOpts 0).2).get? 1).map
      (fun c => c.2.authorization.validBefore) = some 300 ∧
    ((settleCalls (fundJob envFacilitatorOk "job-1" "prop-1" noOpts 0).2).get? 1).map
      (fun c => c.2.signature) = some (envFacilitatorOk.signTypedDataResult 1) ∧
    ((signedMessages (fundJob envFacilitatorOk "job-1" "prop-1" noOpts 0).2).get? 1).map
      (fun m => m.nonce) =
      ((settleCalls (fundJob envFacilitatorOk "job-1" "prop-1" noOpts 0).2).get? 1).map
        (fun c => c.2.authorization.nonce) ∧
    ((signedMessages (fundJob envFacilitatorOk "job-1" "prop-1" noOpts 0).2).get? 1).map
      (fun m => m.value) =
      ((settleCalls (fundJob envFacilitatorOk "job-1" "prop-1" noOpts 0).2).get? 1).map
        (fun c => c.2.authorization.value) ∧
    ((signedMessages (fundJob envFacilitatorOk "job-1" "prop-1" noOpts 0).2).get? 1) ≠
      ((settleCalls (fundJob envFacilitatorOk "job-1" "prop-1" noOpts 0).2).get? 1).map
        (fun c => c.2.authorization) := by
  refine ⟨rfl, rfl, rfl, rfl, rfl, rfl, ?_⟩
  decide

end MdpSdk
